import Mathlib

/-!
Shallow embedding of `oerpfs.py`, a FUSE bridge exposing OpenERP backend
records as a filesystem.  The module defines a base class `OerpFS` holding a
per-mount dict `self.files` of `StringIO` buffers, and three backends:
`OerpFSModel` (ir.attachment records), `OerpFSCsvImport` (write-only CSV
ingestion) and `OerpFSDocument` (document tree nodes).

Modelling conventions:
* Python byte strings are `List Nat` (each element a byte value).
* `self.files` (path → StringIO buffer) is an association list
  `FilesTbl = List (String × List Nat)`; a `StringIO` carries no persistent
  cursor here because every operation of the source seeks before use.
* Operations that can raise are functions returning `state × Except PyErr r`:
  the state component is the state at the moment control leaves the function,
  also when an exception propagates (Python mutations before a raise survive).
* `-ENOENT` return codes are `Int` values (ENOENT = 2).
-/

set_option autoImplicit false

namespace Oerpfs

/-- Python exception classes that the source code can raise (uncaught), plus
`backendFail` for an error raised inside a backend call such as
`import_data`. -/
inductive PyErr where
  | valueError
  | indexError
  | keyError
  | attrError
  | backendFail
deriving DecidableEq

/-- The fields of `fuse.Stat` that the source assigns: `st_mode`, `st_nlink`
and `st_size` (a fresh `fuse.Stat()` has `st_size = 0`). -/
structure FStat where
  st_mode : Nat
  st_nlink : Nat
  st_size : Nat
deriving DecidableEq

/-- Result of a `getattr` handler: either the integer error `-ENOENT` or a
stat record. -/
inductive AttrRes where
  | enoent
  | stat (s : FStat)
deriving DecidableEq

/-- `stat.S_IFDIR` flag bit. -/
def S_IFDIR : Nat := 0o40000

/-- `stat.S_IFREG` flag bit. -/
def S_IFREG : Nat := 0o100000

/-- `errno.ENOENT`. -/
def ENOENT : Int := 2

/-- The per-mount `self.files` dict: path → buffer contents. -/
abbrev FilesTbl : Type := List (String × List Nat)

/-- Dict lookup `self.files.get(path)`. -/
def tblGet (t : FilesTbl) (k : String) : Option (List Nat) :=
  (List.find? (fun p => p.1 == k) t).map (fun p => p.2)

/-- Dict store `self.files[path] = buf` (replaces an existing entry). -/
def tblSet (t : FilesTbl) (k : String) (v : List Nat) : FilesTbl :=
  match t with
  | [] => [(k, v)]
  | p :: rest => if p.1 == k then (k, v) :: rest else p :: tblSet rest k v

/-- Dict removal `del self.files[path]`. -/
def tblDel (t : FilesTbl) (k : String) : FilesTbl :=
  List.filter (fun p => !(p.1 == k)) t

theorem tblGet_set_self (t : FilesTbl) (k : String) (v : List Nat) :
    tblGet (tblSet t k v) k = some v := by
  induction t with
  | nil => simp [tblGet, tblSet, List.find?]
  | cons p rest ih =>
    by_cases h : p.1 = k
    · simp [tblGet, tblSet, h, List.find?]
    · have hb : (p.1 == k) = false := by simp [h]
      simp only [tblSet, hb, if_false]
      simpa [tblGet, List.find?, hb] using ih

theorem tblGet_del_self (t : FilesTbl) (k : String) :
    tblGet (tblDel t k) k = none := by
  induction t with
  | nil => simp [tblGet, tblDel, List.find?]
  | cons p rest ih =>
    by_cases h : p.1 = k
    · have hb : (p.1 == k) = true := by simp [h]
      simp only [tblDel, List.filter, hb, Bool.not_true]
      exact ih
    · have hb : (p.1 == k) = false := by simp [h]
      simp only [tblDel, List.filter, hb, Bool.not_false, if_true]
      simp only [tblGet, List.find?, hb] at ih ⊢
      exact ih

/-- `StringIO` write-at-offset semantics of Python 2: seeking past the end and
writing pads the gap with NUL bytes; otherwise the written range overwrites in
place, extending the buffer if it runs past the end. -/
def bufWrite (buf : List Nat) (data : List Nat) (off : Nat) : List Nat :=
  (buf.take off ++ List.replicate (off - buf.length) 0)
    ++ data ++ buf.drop (off + data.length)

/-- `OerpFS.write` (src/oerpfs.py lines 130-138): return `-ENOENT` when no
buffer is open at `path`, otherwise seek to `offset`, write `buf` and return
its length. -/
def fsWrite (files : FilesTbl) (path : String) (data : List Nat) (off : Nat) :
    FilesTbl × Int :=
  match tblGet files path with
  | none => (files, -ENOENT)
  | some buf => (tblSet files path (bufWrite buf data off), (data.length : Int))

/-- `OerpFS.truncate` (src/oerpfs.py lines 140-144): `self.files[path]` is
looked up with no membership guard, so a missing path raises `KeyError`;
`StringIO.truncate(size=length)` keeps at most `length` bytes. -/
def fsTruncate (files : FilesTbl) (path : String) (n : Nat) :
    FilesTbl × Except PyErr Unit :=
  match tblGet files path with
  | none => (files, .error .keyError)
  | some buf => (tblSet files path (buf.take n), .ok ())

/-- `OerpFS.release` (src/oerpfs.py lines 146-151): close and delete the
buffer; a missing path raises `KeyError`. -/
def fsRelease (files : FilesTbl) (path : String) : FilesTbl × Except PyErr Unit :=
  match tblGet files path with
  | none => (files, .error .keyError)
  | some _ => (tblDel files path, .ok ())

theorem bufWrite_zero (buf data : List Nat) :
    bufWrite buf data 0 = data ++ buf.drop data.length := by
  simp [bufWrite]

/-- Claim C6: `write` on a path with no live open buffer returns `-ENOENT`
and leaves the buffer table unchanged; on a path with a live buffer it
returns exactly the number of bytes supplied and replaces the buffer with
one that keeps the first `off` bytes (zero-padded if the buffer was
shorter), holds `data` at offset `off`, and keeps whatever lay beyond
`off + data.length`. -/
theorem c6_write_spec (files : FilesTbl) (path : String) (data : List Nat) (off : Nat) :
    (tblGet files path = none → fsWrite files path data off = (files, -ENOENT)) ∧
    (∀ buf, tblGet files path = some buf →
      (fsWrite files path data off).2 = (data.length : Int) ∧
      ∃ newbuf, tblGet (fsWrite files path data off).1 path = some newbuf ∧
        newbuf.take off = buf.take off ++ List.replicate (off - buf.length) 0 ∧
        (newbuf.drop off).take data.length = data ∧
        newbuf.drop (off + data.length) = buf.drop (off + data.length)) := by
  constructor
  · intro h
    simp [fsWrite, h]
  · intro buf h
    have hpre : (buf.take off ++ List.replicate (off - buf.length) 0).length = off := by
      simp [List.length_take, List.length_replicate]
      omega
    refine ⟨by simp [fsWrite, h], bufWrite buf data off, ?_, ?_, ?_, ?_⟩
    · simp [fsWrite, h, tblGet_set_self]
    · rw [bufWrite, List.append_assoc]
      rw [List.take_left' hpre]
    · rw [bufWrite, List.append_assoc]
      rw [List.drop_left' hpre]
      exact List.take_left _ _
    · have hlen : ((buf.take off ++ List.replicate (off - buf.length) 0) ++ data).length
          = off + data.length := by
        rw [List.length_append, hpre]
      rw [bufWrite, List.drop_left' hlen]

/-- Witness for C6 at a concrete table: writing `[9]` at offset 0 over the
open buffer `[1, 2]` returns 1. -/
theorem c6_write_spec_witness :
    (fsWrite [("/a", [1, 2])] "/a" [9] 0).2 = (1 : Int) :=
  ((c6_write_spec [("/a", [1, 2])] "/a" [9] 0).2 [1, 2] rfl).1

/-- Claim C9: on a path with no live open buffer `truncate` raises `KeyError`
(the unguarded `self.files[path]` lookup), while `write` on the same state
returns the `-ENOENT` error code: the guard that `write` has is absent from
`truncate`. -/
theorem c9_truncate_unguarded (files : FilesTbl) (path : String) (n : Nat)
    (data : List Nat) (off : Nat) (h : tblGet files path = none) :
    fsTruncate files path n = (files, Except.error PyErr.keyError) ∧
    fsWrite files path data off = (files, -ENOENT) := by
  constructor
  · simp [fsTruncate, h]
  · simp [fsWrite, h]

/-- Witness for C9 at a concrete table with no buffer at the path. -/
theorem c9_truncate_unguarded_witness :
    fsTruncate [] "/x" 5 = ([], Except.error PyErr.keyError) ∧
    fsWrite [] "/x" [1] 0 = ([], -ENOENT) :=
  c9_truncate_unguarded [] "/x" 5 [1] 0 rfl

/-! ### Path splitting, Python `int()` parsing and list indexing -/

/-- Python `str.split(sep)` for a one-character separator, over the character
list: keeps empty fields, so `"a//b"` yields `["a", "", "b"]`. -/
def splitChar (sep : Char) : List Char → List (List Char)
  | [] => [[]]
  | c :: cs =>
    let r := splitChar sep cs
    if c = sep then [] :: r else (c :: r.headD []) :: r.tail

/-- `path.split('/')[1:]` as used throughout the source. -/
def pySplitPath (path : String) : List String :=
  ((splitChar '/' path.toList).map (fun cs => String.mk cs)).drop 1

/-- Value of a run of ASCII digits. -/
def digitsVal (ds : List Char) : Nat :=
  ds.foldl (fun a c => a * 10 + (c.toNat - 48)) 0

/-- Python `int(s)` on an ASCII string: surrounding whitespace is stripped, an
optional sign is allowed, and the remainder must be a nonempty digit run;
`none` models the `ValueError` that `int` raises otherwise. -/
def pyInt (s : String) : Option Int :=
  let t := ((s.toList.dropWhile (fun c => c.isWhitespace)).reverse.dropWhile
      (fun c => c.isWhitespace)).reverse
  let core : Bool × List Char :=
    match t with
    | '-' :: ds => (true, ds)
    | '+' :: ds => (false, ds)
    | ds => (false, ds)
  if core.2 ≠ [] ∧ core.2.all (fun c => c.isDigit) then
    some (if core.1 then -(digitsVal core.2 : Int) else (digitsVal core.2 : Int))
  else none

/-- Python list subscription `l[i]`: raises `IndexError` out of range. -/
def pyIdx {α : Type} (l : List α) (i : Nat) : Except PyErr α :=
  match l.get? i with
  | some a => .ok a
  | none => .error .indexError

/-! ### `base64.b64encode` / `base64.b64decode`

The standard alphabet, three input bytes per four output characters, `'='`
(byte 61) padding.  `b64decode` is defined on well-formed input (the image of
`b64encode`), which is the only way the source applies it: stored payloads are
always produced by `b64encode` in `OerpFSModel.flush`. -/

/-- Character of a six-bit value in the standard base64 alphabet. -/
def b64chr (n : Nat) : Nat :=
  if n < 26 then 65 + n
  else if n < 52 then 97 + (n - 26)
  else if n < 62 then 48 + (n - 52)
  else if n = 62 then 43
  else 47

/-- Six-bit value of a base64 alphabet character. -/
def b64dec (c : Nat) : Nat :=
  if 65 ≤ c ∧ c ≤ 90 then c - 65
  else if 97 ≤ c ∧ c ≤ 122 then 26 + (c - 97)
  else if 48 ≤ c ∧ c ≤ 57 then 52 + (c - 48)
  else if c = 43 then 62
  else if c = 47 then 63
  else 0

def b64encode : List Nat → List Nat
  | a :: b :: c :: rest =>
    b64chr (a / 4) :: b64chr (a % 4 * 16 + b / 16) ::
      b64chr (b % 16 * 4 + c / 64) :: b64chr (c % 64) :: b64encode rest
  | [a, b] => [b64chr (a / 4), b64chr (a % 4 * 16 + b / 16), b64chr (b % 16 * 4), 61]
  | [a] => [b64chr (a / 4), b64chr (a % 4 * 16), 61, 61]
  | [] => []

def b64decode : List Nat → List Nat
  | c1 :: c2 :: c3 :: c4 :: rest =>
    if c3 = 61 then [b64dec c1 * 4 + b64dec c2 / 16]
    else if c4 = 61 then
      [b64dec c1 * 4 + b64dec c2 / 16, b64dec c2 % 16 * 16 + b64dec c3 / 4]
    else
      (b64dec c1 * 4 + b64dec c2 / 16) :: (b64dec c2 % 16 * 16 + b64dec c3 / 4) ::
        ((b64dec c3 % 4 * 64 + b64dec c4) :: b64decode rest)
  | _ => []

theorem b64dec_b64chr : ∀ n < 64, b64dec (b64chr n) = n := by decide

theorem b64chr_ne_pad : ∀ n < 64, b64chr n ≠ 61 := by decide

theorem b64encode_eq_nil (l : List Nat) : b64encode l = [] ↔ l = [] := by
  match l with
  | [] => simp [b64encode]
  | [a] => simp [b64encode]
  | [a, b] => simp [b64encode]
  | a :: b :: c :: rest => simp [b64encode]

theorem b64_round_trip :
    ∀ l : List Nat, (∀ x ∈ l, x < 256) → b64decode (b64encode l) = l
  | [], _ => rfl
  | [a], h => by
    have ha : a < 256 := h a (by simp)
    have h1 : b64dec (b64chr (a / 4)) = a / 4 := b64dec_b64chr _ (by omega)
    have h2 : b64dec (b64chr (a % 4 * 16)) = a % 4 * 16 := b64dec_b64chr _ (by omega)
    simp [b64encode, b64decode, h1, h2]
    omega
  | [a, b], h => by
    have ha : a < 256 := h a (by simp)
    have hb : b < 256 := h b (by simp)
    have h1 : b64dec (b64chr (a / 4)) = a / 4 := b64dec_b64chr _ (by omega)
    have h2 : b64dec (b64chr (a % 4 * 16 + b / 16)) = a % 4 * 16 + b / 16 :=
      b64dec_b64chr _ (by omega)
    have h3 : b64dec (b64chr (b % 16 * 4)) = b % 16 * 4 := b64dec_b64chr _ (by omega)
    have hne : b64chr (b % 16 * 4) ≠ 61 := b64chr_ne_pad _ (by omega)
    simp [b64encode, b64decode, hne, h1, h2, h3]
    omega
  | a :: b :: c :: d :: rest, h => by
    have ha : a < 256 := h a (by simp)
    have hb : b < 256 := h b (by simp)
    have hc : c < 256 := h c (by simp)
    have h1 : b64dec (b64chr (a / 4)) = a / 4 := b64dec_b64chr _ (by omega)
    have h2 : b64dec (b64chr (a % 4 * 16 + b / 16)) = a % 4 * 16 + b / 16 :=
      b64dec_b64chr _ (by omega)
    have h3 : b64dec (b64chr (b % 16 * 4 + c / 64)) = b % 16 * 4 + c / 64 :=
      b64dec_b64chr _ (by omega)
    have h4 : b64dec (b64chr (c % 64)) = c % 64 := b64dec_b64chr _ (by omega)
    have hne3 : b64chr (b % 16 * 4 + c / 64) ≠ 61 := b64chr_ne_pad _ (by omega)
    have hne4 : b64chr (c % 64) ≠ 61 := b64chr_ne_pad _ (by omega)
    have ih := b64_round_trip (d :: rest) (fun x hx => h x (by simp [hx]))
    simp only [b64encode] at ih ⊢
    simp [b64decode, hne3, hne4, h1, h2, h3, h4, ih]
    omega
  | [a, b, c], h => by
    have ha : a < 256 := h a (by simp)
    have hb : b < 256 := h b (by simp)
    have hc : c < 256 := h c (by simp)
    have h1 : b64dec (b64chr (a / 4)) = a / 4 := b64dec_b64chr _ (by omega)
    have h2 : b64dec (b64chr (a % 4 * 16 + b / 16)) = a % 4 * 16 + b / 16 :=
      b64dec_b64chr _ (by omega)
    have h3 : b64dec (b64chr (b % 16 * 4 + c / 64)) = b % 16 * 4 + c / 64 :=
      b64dec_b64chr _ (by omega)
    have h4 : b64dec (b64chr (c % 64)) = c % 64 := b64dec_b64chr _ (by omega)
    have hne3 : b64chr (b % 16 * 4 + c / 64) ≠ 61 := b64chr_ne_pad _ (by omega)
    have hne4 : b64chr (c % 64) ≠ 61 := b64chr_ne_pad _ (by omega)
    simp [b64encode, b64decode, hne3, hne4, h1, h2, h3, h4]
    omega

/-! ### Attachment backend (`OerpFSModel`)

The backend record store is modelled at its interface boundary (spec section
6): `ir.model` is the list of known model names, each model's records the
list of `(model, id)` pairs, and `ir.attachment` a list of attachment rows
whose database ids are their positions in the list.  `search` returns ids in
ascending id order, `read` returns the requested field for the given ids in
the given order, and `write` updates every given id. -/

/-- One `ir.attachment` row.  `datas` holds the stored base64 text as bytes;
`[]` models a falsy payload (never written, `False`/empty). -/
structure AttachRecord where
  res_model : String
  res_id : Int
  name : String
  datas : List Nat
  datas_fname : String
  att_type : String
deriving DecidableEq

/-- State visible to an `OerpFSModel` mount: the backend tables plus the
per-mount `self.files` dict. -/
structure ModelState where
  models : List String
  records : List (String × Int)
  atts : List AttachRecord
  files : FilesTbl

/-- The attachment-search filter
`[('res_model', '=', m), ('res_id', '=', rid), ('name', '=', nm)]`. -/
def attMatch (a : AttachRecord) (m : String) (rid : Int) (nm : String) : Bool :=
  a.res_model == m && a.res_id == rid && a.name == nm

def attSearchAux : List AttachRecord → String → Int → String → Nat → List Nat
  | [], _, _, _, _ => []
  | a :: rest, m, rid, nm, i =>
    if attMatch a m rid nm then i :: attSearchAux rest m rid nm (i + 1)
    else attSearchAux rest m rid nm (i + 1)

/-- `ir.attachment.search` on the (res_model, res_id, name) filter: the ids
(list positions) of all matching rows, in order. -/
def attSearch (atts : List AttachRecord) (m : String) (rid : Int) (nm : String) :
    List Nat :=
  attSearchAux atts m rid nm 0

/-- `ir.attachment.read(ids, ['datas'])`: the `datas` of each id in order. -/
def attReadDatas (atts : List AttachRecord) (ids : List Nat) : List (List Nat) :=
  ids.filterMap (fun i => (atts.get? i).map (fun a => a.datas))

/-- The field values written by `OerpFSModel.flush`: the re-asserted
coordinates, `type:'binary'`, the encoded payload and `datas_fname`. -/
def attUpd (a : AttachRecord) (m : String) (rid : Int) (nm : String)
    (d : List Nat) : AttachRecord :=
  { a with att_type := "binary", datas := d, res_model := m, res_id := rid,
           name := nm, datas_fname := nm }

def attWriteAux : List AttachRecord → List Nat → String → Int → String →
    List Nat → Nat → List AttachRecord
  | [], _, _, _, _, _, _ => []
  | a :: rest, ids, m, rid, nm, d, i =>
    (if ids.contains i then attUpd a m rid nm d else a)
      :: attWriteAux rest ids m rid nm d (i + 1)

/-- `ir.attachment.write(ids, values)` for the values of `flush`. -/
def attWrite (atts : List AttachRecord) (ids : List Nat) (m : String) (rid : Int)
    (nm : String) (d : List Nat) : List AttachRecord :=
  attWriteAux atts ids m rid nm d 0

theorem attSearchAux_mem (atts : List AttachRecord) (m : String) (rid : Int)
    (nm : String) (i j : Nat) :
    j ∈ attSearchAux atts m rid nm i ↔
      ∃ k a, atts.get? k = some a ∧ attMatch a m rid nm = true ∧ j = i + k := by
  induction atts generalizing i with
  | nil => simp [attSearchAux]
  | cons a rest ih =>
    cases hm : attMatch a m rid nm with
    | true =>
      simp only [attSearchAux, hm, if_true, List.mem_cons, ih (i + 1)]
      constructor
      · rintro (rfl | ⟨k, b, hk, hb, rfl⟩)
        · exact ⟨0, a, rfl, hm, by omega⟩
        · exact ⟨k + 1, b, hk, hb, by omega⟩
      · rintro ⟨k, b, hk, hb, rfl⟩
        match k with
        | 0 =>
          rw [List.get?_cons_zero] at hk
          cases hk
          exact Or.inl (by omega)
        | k' + 1 => exact Or.inr ⟨k', b, hk, hb, by omega⟩
    | false =>
      simp only [attSearchAux, hm, Bool.false_eq_true, if_false, ih (i + 1)]
      constructor
      · rintro ⟨k, b, hk, hb, rfl⟩
        exact ⟨k + 1, b, hk, hb, by omega⟩
      · rintro ⟨k, b, hk, hb, rfl⟩
        match k with
        | 0 =>
          rw [List.get?_cons_zero] at hk
          cases hk
          rw [hm] at hb
          cases hb
        | k' + 1 => exact ⟨k', b, hk, hb, by omega⟩

theorem attSearch_mem (atts : List AttachRecord) (m : String) (rid : Int)
    (nm : String) (j : Nat) :
    j ∈ attSearch atts m rid nm ↔
      ∃ a, atts.get? j = some a ∧ attMatch a m rid nm = true := by
  rw [attSearch, attSearchAux_mem]
  constructor
  · rintro ⟨k, a, hk, ha, rfl⟩
    exact ⟨a, by simpa using hk, ha⟩
  · rintro ⟨a, hj, ha⟩
    exact ⟨j, a, hj, ha, by omega⟩

theorem attSearch_eq_nil (atts : List AttachRecord) (m : String) (rid : Int)
    (nm : String) :
    attSearch atts m rid nm = [] ↔
      ∀ k a, atts.get? k = some a → attMatch a m rid nm = false := by
  rw [List.eq_nil_iff_forall_not_mem]
  constructor
  · intro h k a hk
    by_contra hb
    have : attMatch a m rid nm = true := by
      cases hx : attMatch a m rid nm
      · exact absurd hx hb
      · rfl
    exact h k ((attSearch_mem atts m rid nm k).2 ⟨a, hk, this⟩)
  · intro h j hj
    obtain ⟨a, hk, ha⟩ := (attSearch_mem atts m rid nm j).1 hj
    rw [h j a hk] at ha
    cases ha

theorem attWriteAux_get? (atts : List AttachRecord) (ids : List Nat) (m : String)
    (rid : Int) (nm : String) (d : List Nat) (i k : Nat) :
    (attWriteAux atts ids m rid nm d i).get? k
      = (atts.get? k).map
          (fun a => if ids.contains (i + k) then attUpd a m rid nm d else a) := by
  induction atts generalizing i k with
  | nil => simp [attWriteAux]
  | cons a rest ih =>
    match k with
    | 0 => simp [attWriteAux]
    | k' + 1 =>
      simp only [attWriteAux, List.get?_cons_succ]
      rw [ih (i + 1) k']
      have : i + 1 + k' = i + (k' + 1) := by omega
      rw [this]

theorem natContains_iff (l : List Nat) (i : Nat) : l.contains i = true ↔ i ∈ l := by
  simp [List.contains]

/-- Writing the searched coordinates back into every searched row does not
change which rows the same search matches. -/
theorem attSearchAux_write (atts : List AttachRecord) (ids : List Nat)
    (m : String) (rid : Int) (nm : String) (d : List Nat) (i : Nat)
    (hm : ∀ k a, atts.get? k = some a → (i + k) ∈ ids → attMatch a m rid nm = true) :
    attSearchAux (attWriteAux atts ids m rid nm d i) m rid nm i
      = attSearchAux atts m rid nm i := by
  induction atts generalizing i with
  | nil => simp [attWriteAux]
  | cons a rest ih =>
    have hrest : ∀ k b, rest.get? k = some b → (i + 1 + k) ∈ ids →
        attMatch b m rid nm = true := by
      intro k b hk hmem
      refine hm (k + 1) b (by simpa using hk) ?_
      have : i + (k + 1) = i + 1 + k := by omega
      rw [this]
      exact hmem
    by_cases hc : ids.contains i = true
    · have hmem : i ∈ ids := (natContains_iff ids i).1 hc
      have hmatch : attMatch a m rid nm = true := hm 0 a rfl (by simpa using hmem)
      have hupd : attMatch (attUpd a m rid nm d) m rid nm = true := by
        simp [attMatch, attUpd]
      simp only [attWriteAux, hc, if_true, attSearchAux, hupd, hmatch, ih (i + 1) hrest]
    · have hc' : ids.contains i = false := by
        cases hx : ids.contains i
        · rfl
        · exact absurd hx hc
      simp only [attWriteAux, hc', Bool.false_eq_true, if_false, attSearchAux,
        ih (i + 1) hrest]

theorem attSearch_write (atts : List AttachRecord) (m : String) (rid : Int)
    (nm : String) (d : List Nat) :
    attSearch (attWrite atts (attSearch atts m rid nm) m rid nm d) m rid nm
      = attSearch atts m rid nm := by
  have hm : ∀ k a, atts.get? k = some a → (0 + k) ∈ attSearch atts m rid nm →
      attMatch a m rid nm = true := by
    intro k a hk hmem
    rw [show (0 + k) = k by omega] at hmem
    obtain ⟨b, hb, hmatch⟩ := (attSearch_mem atts m rid nm k).1 hmem
    rw [hk] at hb
    cases hb
    exact hmatch
  exact attSearchAux_write atts (attSearch atts m rid nm) m rid nm d 0 hm

/-- Reading `datas` of a nonempty id list whose first id points at a row
yields that row's `datas` first. -/
theorem attReadDatas_head (atts : List AttachRecord) (ids : List Nat)
    (j0 : Nat) (a : AttachRecord) (hh : ids.head? = some j0)
    (ha : atts.get? j0 = some a) :
    (attReadDatas atts ids)[0]? = some a.datas := by
  match ids with
  | [] => cases hh
  | j :: rest =>
    rw [List.head?_cons] at hh
    cases hh
    have ha' : atts[j0]? = some a := by
      rw [← List.get?_eq_getElem?]
      exact ha
    simp [attReadDatas, ha']

/-- A synthesized directory stat: `S_IFDIR | 0600`, `st_nlink = 0`. -/
def dirAttr : FStat := { st_mode := S_IFDIR ||| 0o600, st_nlink := 0, st_size := 0 }

/-- `OerpFSModel.getattr` (src/oerpfs.py lines 161-221) on an already split
path. The record-existence search `[('id', '=', int(paths[1]))]` is the
membership test on the `(model, id)` record table; `int(paths[1])` raises
`ValueError` on a non-numeric segment. -/
def mGetattrAux (st : ModelState) (paths : List String) : Except PyErr AttrRes :=
  if paths.length > 3 then .ok .enoent
  else
    match pyIdx paths 0 with
    | .error e => .error e
    | .ok m =>
      if st.models.contains m then
        if paths.length = 1 then .ok (.stat dirAttr)
        else
          match pyIdx paths 1 with
          | .error e => .error e
          | .ok ridS =>
            match pyInt ridS with
            | none => .error .valueError
            | some rid =>
              if st.records.contains (m, rid) then
                if paths.length = 2 then .ok (.stat dirAttr)
                else
                  match pyIdx paths 2 with
                  | .error e => .error e
                  | .ok nm =>
                    match attSearch st.atts m rid nm with
                    | [] => .ok .enoent
                    | ids =>
                      match pyIdx (attReadDatas st.atts ids) 0 with
                      | .error e => .error e
                      | .ok d0 =>
                        .ok (.stat
                          { st_mode := S_IFREG ||| 0o600, st_nlink := 2,
                            st_size :=
                              if d0 ≠ [] then (b64decode d0).length else 0 })
              else .ok .enoent
      else .ok .enoent

/-- `OerpFSModel.getattr`: root is a directory, otherwise resolve the split
path against the backend. -/
def mGetattr (st : ModelState) (path : String) : Except PyErr AttrRes :=
  if path = "/" then .ok (.stat dirAttr)
  else mGetattrAux st (pySplitPath path)

/-- The backend part of `OerpFSModel.open` (src/oerpfs.py lines 274-290),
after `super().open` has installed the empty buffer: search the attachment,
read its `datas` (`attachment_data[0]` raises `IndexError` when the search
returned no ids) and, when the payload is truthy, replace the buffer with
the decoded payload. -/
def mOpenAux (st : ModelState) (path : String) (paths : List String) :
    ModelState × Except PyErr Unit :=
  match pyIdx paths 0 with
  | .error e => (st, .error e)
  | .ok m =>
    match pyIdx paths 1 with
    | .error e => (st, .error e)
    | .ok ridS =>
      match pyInt ridS with
      | none => (st, .error .valueError)
      | some rid =>
        match pyIdx paths 2 with
        | .error e => (st, .error e)
        | .ok nm =>
          match pyIdx (attReadDatas st.atts (attSearch st.atts m rid nm)) 0 with
          | .error e => (st, .error e)
          | .ok d0 =>
            if d0 ≠ [] then
              ({ st with files := tblSet st.files path (b64decode d0) }, .ok ())
            else (st, .ok ())

/-- `OerpFSModel.open`: `super().open` stores an empty buffer, then the
attachment payload is fetched and decoded. -/
def mOpen (st : ModelState) (path : String) : ModelState × Except PyErr Unit :=
  mOpenAux { st with files := tblSet st.files path [] } path (pySplitPath path)

/-- The backend part of `OerpFSModel.flush` (src/oerpfs.py lines 309-329):
re-search the attachment ids and write the encoded buffer (plus re-asserted
coordinates) into every matched row.  The `res_id` column receives the
numeric value of the segment (database coercion of the string the code
passes). -/
def mFlushAux (st : ModelState) (value : List Nat) (paths : List String) :
    ModelState × Except PyErr Unit :=
  match pyIdx paths 0 with
  | .error e => (st, .error e)
  | .ok m =>
    match pyIdx paths 1 with
    | .error e => (st, .error e)
    | .ok ridS =>
      match pyInt ridS with
      | none => (st, .error .valueError)
      | some rid =>
        match pyIdx paths 2 with
        | .error e => (st, .error e)
        | .ok nm =>
          ({ st with
              atts := attWrite st.atts (attSearch st.atts m rid nm) m rid nm
                (b64encode value) }, .ok ())

/-- `OerpFSModel.flush`: `self.files[path].getvalue()` raises `KeyError` when
no buffer is open, otherwise the buffer is pushed to the backend. -/
def mFlush (st : ModelState) (path : String) : ModelState × Except PyErr Unit :=
  match tblGet st.files path with
  | none => (st, .error .keyError)
  | some value => mFlushAux st value (pySplitPath path)

/-- `OerpFS.read` as dispatched on an `OerpFSModel` mount: a missing buffer
first runs `self.open` (dynamic dispatch to `OerpFSModel.open`), then the
buffer is sliced at `[offset, offset + size)`. -/
def mRead (st : ModelState) (path : String) (size off : Nat) :
    ModelState × Except PyErr (List Nat) :=
  match tblGet st.files path with
  | some buf => (st, .ok ((buf.drop off).take size))
  | none =>
    match mOpen st path with
    | (st2, .error e) => (st2, .error e)
    | (st2, .ok _) =>
      match tblGet st2.files path with
      | some buf => (st2, .ok ((buf.drop off).take size))
      | none => (st2, .error .keyError)

/-- The operation sequence of claim C1 on an attachment mount:
`write(p, B, 0); flush(p); release(p); open(p); read(p, |B|, 0)`. -/
def roundTripRun (st : ModelState) (path : String) (B : List Nat) :
    Except PyErr (List Nat) :=
  match mFlush { st with files := (fsWrite st.files path B 0).1 } path with
  | (st2, .ok _) =>
    match fsRelease st2.files path with
    | (f3, .ok _) =>
      match mOpen { st2 with files := f3 } path with
      | (st4, .ok _) => (mRead st4 path B.length 0).2
      | (_, .error e) => .error e
    | (_, .error e) => .error e
  | (_, .error e) => .error e

theorem pySplitPath_root : pySplitPath "/" = [""] := rfl

/-- Claim C10: `OerpFSModel.open` on a 3-segment path whose parsed
coordinates match no attachment row raises `IndexError` (the
`attachment_data[0]` subscription of an empty read result) instead of
returning NotFound. -/
theorem c10_open_missing (st : ModelState) (path m ridS nm : String) (rid : Int)
    (hsplit : pySplitPath path = [m, ridS, nm])
    (hrid : pyInt ridS = some rid)
    (hno : ∀ k a, st.atts.get? k = some a → attMatch a m rid nm = false) :
    (mOpen st path).2 = Except.error PyErr.indexError := by
  have hsearch : attSearch st.atts m rid nm = [] := (attSearch_eq_nil _ _ _ _).2 hno
  simp [mOpen, mOpenAux, hsplit, pyIdx, hrid, hsearch, attReadDatas]

/-- Concrete state for the C10 witness: the attachment table is empty. -/
def c10St : ModelState :=
  { models := ["partner"], records := [("partner", 7)], atts := [], files := [] }

/-- Witness for C10: opening `/partner/7/a.txt` with no matching attachment
row ends in `IndexError`. -/
theorem c10_open_missing_witness :
    (mOpen c10St "/partner/7/a.txt").2 = Except.error PyErr.indexError :=
  c10_open_missing c10St "/partner/7/a.txt" "partner" "7" "a.txt" 7 rfl rfl
    (fun k a hk => by cases k <;> cases hk)

/-- State for the C2 refutation: the model `partner` exists. -/
def c2St : ModelState := { models := ["partner"], records := [], atts := [], files := [] }

/-- Counterexample to claim C2 as stated: `getattr` on `/partner/abc` (second
segment not an integer, model existing) propagates `ValueError`; it does not
return the NotFound result `-ENOENT`. -/
theorem c2_counterexample :
    mGetattr c2St "/partner/abc" = Except.error PyErr.valueError ∧
    mGetattr c2St "/partner/abc" ≠ Except.ok AttrRes.enoent := by
  have h : mGetattr c2St "/partner/abc" = Except.error PyErr.valueError := by rfl
  refine ⟨h, ?_⟩
  rw [h]
  intro hx
  cases hx

/-- Claim C2 as amended: on a 2- or 3-segment path whose second segment does
not parse as an integer, `getattr` returns NotFound only when the first
segment is not an existing model (the model check precedes parsing); when the
model exists, the `int()` parse failure propagates as `ValueError`, a
different error class. -/
theorem c2_amended (st : ModelState) (path m ridS : String) (rest : List String)
    (hsplit : pySplitPath path = m :: ridS :: rest) (hlen : rest.length ≤ 1)
    (hrid : pyInt ridS = none) :
    mGetattr st path
      = if st.models.contains m then Except.error PyErr.valueError
        else Except.ok AttrRes.enoent := by
  have hroot : path ≠ "/" := by
    intro h
    rw [h, pySplitPath_root] at hsplit
    have := congrArg List.length hsplit
    simp at this
  rw [mGetattr, if_neg hroot, hsplit]
  cases hc : st.models.contains m with
  | true =>
    have hc' : m ∈ st.models := by simpa using hc
    have hgt : ¬(3 < rest.length + 1 + 1) := by omega
    have h1 : ¬(rest.length + 1 + 1 = 1) := by omega
    simp [mGetattrAux, pyIdx, hc, hc', hrid, hgt, h1]
  | false =>
    have hc' : ¬(m ∈ st.models) := by simpa using hc
    have hgt : ¬(3 < rest.length + 1 + 1) := by omega
    simp [mGetattrAux, pyIdx, hc, hc', hgt]

/-- Witness for C2 as amended, at the state where model `partner` exists. -/
theorem c2_amended_witness :
    mGetattr c2St "/partner/abc"
      = if c2St.models.contains "partner" then Except.error PyErr.valueError
        else Except.ok AttrRes.enoent :=
  c2_amended c2St "/partner/abc" "partner" "abc" [] rfl (by decide) rfl

/-- `OerpFSModel.open` followed by a read, on a state in which every
attachment row matched by the path's coordinates stores the encoded payload
`b64encode V`: the open succeeds and the read returns a prefix of `V`. -/
theorem mOpen_read (stO : ModelState) (path m ridS nm : String) (rid : Int)
    (V : List Nat) (n : Nat)
    (hsplit : pySplitPath path = [m, ridS, nm]) (hrid : pyInt ridS = some rid)
    (hV : ∀ x ∈ V, x < 256)
    (hSne : attSearch stO.atts m rid nm ≠ [])
    (hdat : ∀ j aj, stO.atts.get? j = some aj → j ∈ attSearch stO.atts m rid nm →
      aj.datas = b64encode V) :
    (mOpen stO path).2 = Except.ok () ∧
    (mRead (mOpen stO path).1 path n 0).2 = Except.ok (V.take n) := by
  cases hS : attSearch stO.atts m rid nm with
  | nil => exact absurd hS hSne
  | cons j0 srest =>
    have hj0mem : j0 ∈ attSearch stO.atts m rid nm := by
      rw [hS]
      exact List.mem_cons_self _ _
    obtain ⟨a0, hj0, _⟩ := (attSearch_mem _ _ _ _ j0).1 hj0mem
    have hd0 : a0.datas = b64encode V := hdat j0 a0 hj0 hj0mem
    have hread0 : (attReadDatas stO.atts (j0 :: srest))[0]? = some (b64encode V) := by
      rw [attReadDatas_head stO.atts (j0 :: srest) j0 a0 rfl hj0, hd0]
    by_cases hVe : V = []
    · subst hVe
      constructor
      · simp [mOpen, mOpenAux, hsplit, pyIdx, hrid, hS, hread0, b64encode]
      · simp [mOpen, mOpenAux, hsplit, pyIdx, hrid, hS, hread0, b64encode, mRead,
          tblGet_set_self]
    · have hEe : ¬(b64encode V = []) := by
        intro h
        exact hVe ((b64encode_eq_nil V).1 h)
      have hdec : b64decode (b64encode V) = V := b64_round_trip V hV
      constructor
      · simp [mOpen, mOpenAux, hsplit, pyIdx, hrid, hS, hread0, hEe]
      · simp [mOpen, mOpenAux, hsplit, pyIdx, hrid, hS, hread0, hEe, hdec, mRead,
          tblGet_set_self]

/-- Claim C1: on an attachment path whose coordinates parse and match an
existing attachment row, with a live open buffer, the sequence
`write(p, B, 0); flush(p); release(p); open(p); read(p, |B|, 0)` returns
exactly `B`: flush stores the base64-encoded buffer and open re-fetches and
decodes it. -/
theorem c1_round_trip (st : ModelState) (path m ridS nm : String) (rid : Int)
    (B buf0 : List Nat)
    (hsplit : pySplitPath path = [m, ridS, nm])
    (hrid : pyInt ridS = some rid)
    (hbuf : tblGet st.files path = some buf0)
    (hatt : ∃ k a, st.atts.get? k = some a ∧ attMatch a m rid nm = true)
    (hB : ∀ x ∈ B, x < 256) (h0 : ∀ x ∈ buf0, x < 256) :
    roundTripRun st path B = Except.ok B := by
  obtain ⟨k, a, hk, hka⟩ := hatt
  have hV : ∀ x ∈ B ++ buf0.drop B.length, x < 256 := by
    intro x hx
    rcases List.mem_append.1 hx with h | h
    · exact hB x h
    · exact h0 x (List.drop_subset _ _ h)
  have hkmem : k ∈ attSearch st.atts m rid nm := (attSearch_mem _ _ _ _ k).2 ⟨a, hk, hka⟩
  have hw1 : (fsWrite st.files path B 0).1
      = tblSet st.files path (B ++ buf0.drop B.length) := by
    simp [fsWrite, hbuf, bufWrite_zero]
  have hflush : mFlush
        { st with files := tblSet st.files path (B ++ buf0.drop B.length) } path
      = ({ st with
            files := tblSet st.files path (B ++ buf0.drop B.length),
            atts := attWrite st.atts (attSearch st.atts m rid nm) m rid nm
              (b64encode (B ++ buf0.drop B.length)) }, Except.ok ()) := by
    simp [mFlush, tblGet_set_self, mFlushAux, hsplit, pyIdx, hrid]
  have hrel : fsRelease (tblSet st.files path (B ++ buf0.drop B.length)) path
      = (tblDel (tblSet st.files path (B ++ buf0.drop B.length)) path,
         Except.ok ()) := by
    simp [fsRelease, tblGet_set_self]
  have hsw : attSearch (attWrite st.atts (attSearch st.atts m rid nm) m rid nm
        (b64encode (B ++ buf0.drop B.length))) m rid nm
      = attSearch st.atts m rid nm :=
    attSearch_write st.atts m rid nm (b64encode (B ++ buf0.drop B.length))
  have hSneA : attSearch (attWrite st.atts (attSearch st.atts m rid nm) m rid nm
        (b64encode (B ++ buf0.drop B.length))) m rid nm ≠ [] := by
    rw [hsw]
    intro h
    rw [h] at hkmem
    cases hkmem
  have hdat : ∀ j aj,
      (attWrite st.atts (attSearch st.atts m rid nm) m rid nm
        (b64encode (B ++ buf0.drop B.length))).get? j = some aj →
      j ∈ attSearch (attWrite st.atts (attSearch st.atts m rid nm) m rid nm
        (b64encode (B ++ buf0.drop B.length))) m rid nm →
      aj.datas = b64encode (B ++ buf0.drop B.length) := by
    intro j aj hj hjm
    rw [hsw] at hjm
    have hcj : (attSearch st.atts m rid nm).contains j = true :=
      (natContains_iff _ _).2 hjm
    rw [attWrite, attWriteAux_get?] at hj
    rcases hga : st.atts.get? j with _ | aorig
    · rw [hga] at hj
      cases hj
    · rw [hga] at hj
      simp [hcj] at hj
      rw [← hj, if_pos hjm]
      rfl
  have hopen := mOpen_read
    { st with
        files := tblDel (tblSet st.files path (B ++ buf0.drop B.length)) path,
        atts := attWrite st.atts (attSearch st.atts m rid nm) m rid nm
          (b64encode (B ++ buf0.drop B.length)) }
    path m ridS nm rid (B ++ buf0.drop B.length) B.length hsplit hrid hV hSneA hdat
  obtain ⟨hok, hread⟩ := hopen
  unfold roundTripRun
  rw [hw1, hflush]
  simp only []
  rw [hrel]
  simp only []
  rcases hOE : mOpen
      { st with
          files := tblDel (tblSet st.files path (B ++ buf0.drop B.length)) path,
          atts := attWrite st.atts (attSearch st.atts m rid nm) m rid nm
            (b64encode (B ++ buf0.drop B.length)) } path with ⟨st4, r4⟩
  rw [hOE] at hok hread
  simp only [] at hok hread
  rw [hok]
  simp only []
  rw [hread, List.take_left]

/-- Concrete state for the C1 witness: attachment `/partner/7/a.txt` exists
with an empty payload and an open (empty) buffer at that path. -/
def c1St : ModelState :=
  { models := ["partner"], records := [("partner", 7)],
    atts := [{ res_model := "partner", res_id := 7, name := "a.txt", datas := [],
               datas_fname := "a.txt", att_type := "binary" }],
    files := [("/partner/7/a.txt", [])] }

/-- Witness for C1: writing the bytes `"hi"` and running the claimed
sequence returns them. -/
theorem c1_round_trip_witness :
    roundTripRun c1St "/partner/7/a.txt" [104, 105] = Except.ok [104, 105] :=
  c1_round_trip c1St "/partner/7/a.txt" "partner" "7" "a.txt" 7 [104, 105] []
    rfl rfl rfl ⟨0, _, rfl, rfl⟩ (by decide) (by decide)

/-- State for the C7 refutation: the model `partner` exists, the attachment
table is empty. -/
def c7St : ModelState := { models := ["partner"], records := [], atts := [], files := [] }

/-- Counterexample to claim C7 as stated: on the 3-segment path
`/partner/x/a.txt` no attachment matches (the second segment is not even
numeric), yet `getattr` does not return NotFound — it propagates
`ValueError` from `int('x')`. -/
theorem c7_counterexample :
    mGetattr c7St "/partner/x/a.txt" = Except.error PyErr.valueError ∧
    mGetattr c7St "/partner/x/a.txt" ≠ Except.ok AttrRes.enoent := by
  have h : mGetattr c7St "/partner/x/a.txt" = Except.error PyErr.valueError := by rfl
  refine ⟨h, ?_⟩
  rw [h]
  intro hx
  cases hx

/-- Claim C7 as amended: on a 3-segment path whose second segment parses as
an integer, in a referentially intact store where (model, record_id, name)
identifies at most one attachment, `getattr` returns a `S_IFREG | 0600` stat
whose size is the length of the base64-decoded payload (0 when the payload
is falsy) when a matching attachment exists, and NotFound when none does. -/
theorem c7_amended (st : ModelState) (path m ridS nm : String) (rid : Int)
    (hsplit : pySplitPath path = [m, ridS, nm])
    (hrid : pyInt ridS = some rid)
    (hwf : ∀ a ∈ st.atts, st.models.contains a.res_model = true ∧
       st.records.contains (a.res_model, a.res_id) = true)
    (huniq : ∀ i j a b, st.atts.get? i = some a → st.atts.get? j = some b →
       attMatch a m rid nm = true → attMatch b m rid nm = true → i = j) :
    (∀ k a, st.atts.get? k = some a → attMatch a m rid nm = true →
       mGetattr st path = Except.ok (AttrRes.stat
         { st_mode := S_IFREG ||| 0o600, st_nlink := 2,
           st_size := if a.datas ≠ [] then (b64decode a.datas).length else 0 })) ∧
    ((∀ k a, st.atts.get? k = some a → attMatch a m rid nm = false) →
       mGetattr st path = Except.ok AttrRes.enoent) := by
  have hroot : path ≠ "/" := by
    intro h
    rw [h, pySplitPath_root] at hsplit
    have := congrArg List.length hsplit
    simp at this
  constructor
  · intro k a hk hka
    have hmem : a ∈ st.atts := List.get?_mem hk
    have hwfa := hwf a hmem
    obtain ⟨⟨heqm, heqr⟩, heqn⟩ : (a.res_model = m ∧ a.res_id = rid) ∧ a.name = nm := by
      simpa [attMatch] using hka
    have hcm : st.models.contains m = true := by
      rw [← heqm]
      exact hwfa.1
    have hcr : st.records.contains (m, rid) = true := by
      rw [← heqm, ← heqr]
      exact hwfa.2
    have hkmem : k ∈ attSearch st.atts m rid nm := (attSearch_mem _ _ _ _ k).2 ⟨a, hk, hka⟩
    rw [mGetattr, if_neg hroot, hsplit]
    cases hids : attSearch st.atts m rid nm with
    | nil =>
      rw [hids] at hkmem
      cases hkmem
    | cons j0 rest =>
      have hj0mem : j0 ∈ attSearch st.atts m rid nm := by
        rw [hids]
        exact List.mem_cons_self _ _
      obtain ⟨a0, hj0, ha0⟩ := (attSearch_mem _ _ _ _ j0).1 hj0mem
      have hjk : j0 = k := huniq j0 k a0 a hj0 hk ha0 hka
      subst hjk
      have haa : a0 = a := by
        rw [hk] at hj0
        exact (Option.some.inj hj0).symm
      subst haa
      have hread : (attReadDatas st.atts (j0 :: rest))[0]? = some a0.datas :=
        attReadDatas_head st.atts (j0 :: rest) j0 a0 rfl hk
      have hcm' : m ∈ st.models := by simpa using hcm
      have hcr' : (m, rid) ∈ st.records := by simpa using hcr
      simp [mGetattrAux, pyIdx, hcm, hcm', hcr, hcr', hrid, hids, hread]
  · intro hno
    have hsearch : attSearch st.atts m rid nm = [] := (attSearch_eq_nil _ _ _ _).2 hno
    rw [mGetattr, if_neg hroot, hsplit]
    cases hcm : st.models.contains m with
    | false =>
      have hcm' : ¬(m ∈ st.models) := by simpa using hcm
      simp [mGetattrAux, pyIdx, hcm, hcm']
    | true =>
      have hcm' : m ∈ st.models := by simpa using hcm
      cases hcr : st.records.contains (m, rid) with
      | false =>
        have hcr' : ¬((m, rid) ∈ st.records) := by simpa using hcr
        simp [mGetattrAux, pyIdx, hcm, hcm', hrid, hcr, hcr']
      | true =>
        have hcr' : (m, rid) ∈ st.records := by simpa using hcr
        simp [mGetattrAux, pyIdx, hcm, hcm', hrid, hcr, hcr', hsearch]

/-- State for the C7 witness: one attachment `/partner/7/a.txt` whose stored
payload is the base64 text `aGk=` (encoding the two bytes `hi`). -/
def c7WSt : ModelState :=
  { models := ["partner"], records := [("partner", 7)],
    atts := [{ res_model := "partner", res_id := 7, name := "a.txt",
               datas := [97, 71, 107, 61], datas_fname := "a.txt",
               att_type := "binary" }],
    files := [] }

/-- Witness for C7 as amended: `getattr` on the existing attachment reports
a regular file of size 2 (the decoded payload length). -/
theorem c7_amended_witness :
    mGetattr c7WSt "/partner/7/a.txt" = Except.ok (AttrRes.stat
      { st_mode := S_IFREG ||| 0o600, st_nlink := 2, st_size := 2 }) :=
  (c7_amended c7WSt "/partner/7/a.txt" "partner" "7" "a.txt" 7 rfl rfl
      (by
        intro a ha
        simp only [c7WSt, List.mem_singleton] at ha
        subst ha
        exact ⟨rfl, rfl⟩)
      (by
        intro i j a b hi hj h1 h2
        match i, j with
        | 0, 0 => rfl
        | 0, j' + 1 => simp [c7WSt, List.get?] at hj
        | i' + 1, _ => simp [c7WSt, List.get?] at hi)).1
    0 _ rfl rfl

/-! ### CSV-import backend (`OerpFSCsvImport`) -/

/-- Bytes of an ASCII string, for concrete buffers. -/
def strBytes (s : String) : List Nat := s.toList.map Char.toNat

/-- If `pat` is a leading run of `l`, the remainder of `l` after it. -/
def takeAfterPat : List Char → List Char → Option (List Char)
  | [], l => some l
  | _ :: _, [] => none
  | p :: ps, x :: xs => if x = p then takeAfterPat ps xs else none

/-- Python `str.replace(pat, repl)` for a nonempty `pat`: leftmost,
non-overlapping occurrences.  Fuel-driven recursion; the fuel is set to the
string length, which suffices because every step consumes at least one
character when `pat` is nonempty. -/
def replCharsFuel (pat repl : List Char) : Nat → List Char → List Char
  | 0, l => l
  | _ + 1, [] => []
  | fuel + 1, x :: xs =>
    match takeAfterPat pat (x :: xs) with
    | some rest => repl ++ replCharsFuel pat repl fuel rest
    | none => x :: replCharsFuel pat repl fuel xs

/-- `s.replace(pat, repl)` (as used with the nonempty pattern `'.csv'`). -/
def pyReplace (s pat repl : String) : String :=
  String.mk (replCharsFuel pat.toList repl.toList s.toList.length s.toList)

/-- `path.replace('.csv', '')[1:]` — the target model name derivation of
`OerpFSCsvImport.release` (src/oerpfs.py line 397).  Note this removes every
occurrence of `.csv`, not only a final suffix. -/
def csvModelOf (path : String) : String := (pyReplace path ".csv" "").drop 1

/-- One recorded invocation of the bulk-import sink
`import_data(cr, uid, fields, data, 'init', '', False, ...)`. -/
structure ImportCall where
  model : String
  header : List (List Nat)
  rows : List (List (List Nat))
  mode : String
deriving DecidableEq

/-- State visible to an `OerpFSCsvImport` mount: the buffer table, the set of
model names the registry pool knows, the log of import invocations, and a
flag selecting whether the backend import call raises. -/
structure CsvState where
  files : FilesTbl
  poolModels : List String
  imports : List ImportCall
  importFails : Bool
deriving DecidableEq

/-- `OerpFSCsvImport.getattr` (src/oerpfs.py lines 355-371): the root and the
currently buffered files exist with write-only permission bits (0200);
everything else is `-ENOENT`. -/
def csvGetattr (st : CsvState) (path : String) : AttrRes :=
  if path = "/" then .stat { st_mode := S_IFDIR ||| 0o200, st_nlink := 0, st_size := 0 }
  else if (tblGet st.files path).isSome then
    .stat { st_mode := S_IFREG ||| 0o200, st_nlink := 1, st_size := 0 }
  else .enoent

/-- `OerpFS.read` as dispatched on an `OerpFSCsvImport` mount: the class does
not override `read` or `open`, so a missing buffer is implicitly opened
empty (base `open`) and the buffer is sliced. -/
def csvRead (files : FilesTbl) (path : String) (size off : Nat) :
    FilesTbl × List Nat :=
  match tblGet files path with
  | some buf => (files, (buf.drop off).take size)
  | none => (tblSet files path [], (([] : List Nat).drop off).take size)

/-- `OerpFSCsvImport.release` (src/oerpfs.py lines 383-410).  `parse` stands
for `list(csv.reader(...))` (an external library call); `superFlush` stands
for the trailing `super(OerpFSCsvImport, self).flush(path)` call, whose
behavior is owned by the fuse base class (`OerpFS` defines no `flush`).
Order of effects, as in the source: buffer lookup (`KeyError` when absent),
parse, model-name derivation, `pool.get(model).import_data` — the attribute
access on `None` raises when the pool lacks the model, `lines[0]` raises
`IndexError` on an empty parse, the invocation itself is logged and raises
when the backend fails — then buffer close/del, then the trailing flush. -/
def csvRelease (parse : List Nat → List (List (List Nat)))
    (superFlush : Except PyErr Unit) (st : CsvState) (path : String) :
    CsvState × Except PyErr Unit :=
  match tblGet st.files path with
  | none => (st, .error .keyError)
  | some buf =>
    if st.poolModels.contains (csvModelOf path) then
      match (parse buf)[0]? with
      | none => (st, .error .indexError)
      | some header =>
        if st.importFails then
          ({ st with imports := st.imports ++
              [{ model := csvModelOf path, header := header,
                 rows := (parse buf).drop 1, mode := "init" }] },
           .error .backendFail)
        else
          ({ st with
              imports := st.imports ++
                [{ model := csvModelOf path, header := header,
                   rows := (parse buf).drop 1, mode := "init" }],
              files := tblDel st.files path },
           superFlush)
    else (st, .error .attrError)

/-- Byte-list split on a separator byte, keeping empty fields. -/
def splitByte (sep : Nat) : List Nat → List (List Nat)
  | [] => [[]]
  | x :: xs =>
    let r := splitByte sep xs
    if x = sep then [] :: r else (x :: r.headD []) :: r.tail

/-- A concrete comma/newline tabular parser used to instantiate the abstract
`parse` parameter on witness inputs (fields split on `,` = 44, records split
on `\n` = 10, a trailing newline yields no extra record). -/
def simpleParse (bs : List Nat) : List (List (List Nat)) :=
  ((splitByte 10 bs).filter (fun r => r ≠ [])).map (splitByte 44)

/-- State for the C3 refutation: a buffered CSV file whose import call
raises. -/
def c3St : CsvState :=
  { files := [("/contact.csv", strBytes "name,age\nAlice,30\n")],
    poolModels := ["contact"], imports := [], importFails := true }

/-- Counterexample to claim C3 as stated: when the bulk-import call raises,
`release` propagates the exception and the path still has a live buffer —
the buffer is not discarded. -/
theorem c3_counterexample :
    tblGet (csvRelease simpleParse (Except.ok ()) c3St "/contact.csv").1.files
        "/contact.csv" = some (strBytes "name,age\nAlice,30\n") ∧
    (csvRelease simpleParse (Except.ok ()) c3St "/contact.csv").2
      = Except.error PyErr.backendFail :=
  ⟨rfl, rfl⟩

/-- Claim C3 as amended: the buffer is discarded exactly when the bulk-import
call returns; if the import call raises a backend failure, `release`
propagates it (`del self.files[path]` is never reached) and the buffer
remains live. -/
theorem c3_amended (parse : List Nat → List (List (List Nat)))
    (sf : Except PyErr Unit) (st : CsvState) (path : String) (buf : List Nat)
    (hbuf : tblGet st.files path = some buf)
    (hpool : st.poolModels.contains (csvModelOf path) = true)
    (hlines : parse buf ≠ []) :
    (st.importFails = true →
       tblGet (csvRelease parse sf st path).1.files path = some buf ∧
       (csvRelease parse sf st path).2 = Except.error PyErr.backendFail) ∧
    (st.importFails = false →
       tblGet (csvRelease parse sf st path).1.files path = none) := by
  cases hl : parse buf with
  | nil => exact absurd hl hlines
  | cons h t =>
    have hpool' : csvModelOf path ∈ st.poolModels := by simpa using hpool
    constructor
    · intro hf
      constructor
      · simp [csvRelease, hbuf, hpool, hpool', hl, hf]
      · simp [csvRelease, hbuf, hpool, hpool', hl, hf]
    · intro hf
      simp [csvRelease, hbuf, hpool, hpool', hl, hf, tblGet_del_self]

/-- State for the C3 witness: same buffered file, but the import call
succeeds. -/
def c3WSt : CsvState :=
  { files := [("/contact.csv", strBytes "name,age\nAlice,30\n")],
    poolModels := ["contact"], imports := [], importFails := false }

/-- Witness for C3 as amended: after a successful import the buffer is gone. -/
theorem c3_amended_witness :
    tblGet (csvRelease simpleParse (Except.ok ()) c3WSt "/contact.csv").1.files
        "/contact.csv" = none :=
  (c3_amended simpleParse (Except.ok ()) c3WSt "/contact.csv"
      (strBytes "name,age\nAlice,30\n") rfl rfl (by decide)).2 rfl

/-- Counterexample to claim C4 as stated: writing the bytes of `"secret"`
into a live buffer on a CSV mount and then calling `read` on the same path
returns exactly those bytes — the inherited `read` does serve content back. -/
theorem c4_counterexample :
    (csvRead (fsWrite [("/x.csv", [])] "/x.csv" (strBytes "secret") 0).1
      "/x.csv" 6 0).2 = strBytes "secret" := rfl

/-- Claim C4 as amended: what the backend enforces is permission, not the
read path: every stat that `OerpFSCsvImport.getattr` returns carries
permission bits 0200 (owner write only, no read bits for anyone), so the
kernel refuses read access; the `read` handler itself, invoked on a path
with a live buffer, returns the buffered bytes. -/
theorem c4_amended (st : CsvState) (path : String) (s : FStat)
    (h : csvGetattr st path = AttrRes.stat s) : s.st_mode % 512 = 128 := by
  unfold csvGetattr at h
  split at h
  · injection h with h2
    subst h2
    decide
  · split at h
    · injection h with h2
      subst h2
      decide
    · cases h

/-- Witness for C4 as amended at the root of an empty CSV mount. -/
theorem c4_amended_witness :
    (FStat.mk (S_IFDIR ||| 0o200) 0 0).st_mode % 512 = 128 :=
  c4_amended { files := [], poolModels := [], imports := [], importFails := false }
    "/" (FStat.mk (S_IFDIR ||| 0o200) 0 0) rfl

/-- State A for the C5 refutation: a buffered file whose name contains
`.csv` twice. -/
def c5StA : CsvState :=
  { files := [("/a.csv.csv", strBytes "name\nx\n")], poolModels := ["a"],
    imports := [], importFails := false }

/-- State B for the C5 refutation: a buffered file whose content parses to
zero rows. -/
def c5StB : CsvState :=
  { files := [("/contact.csv", [])], poolModels := ["contact"],
    imports := [], importFails := false }

/-- Counterexample to claim C5 as stated, on two inputs: for `/a.csv.csv`
the import target is `a` (every `.csv` occurrence removed), not the
suffix-stripped `a.csv`; and for an empty buffered content the import sink
is never invoked — `lines[0]` raises `IndexError` first. -/
theorem c5_counterexample :
    (csvRelease simpleParse (Except.ok ()) c5StA "/a.csv.csv").1.imports
      = [{ model := "a", header := [strBytes "name"], rows := [[strBytes "x"]],
           mode := "init" }] ∧
    csvModelOf "/a.csv.csv" ≠ "a.csv" ∧
    (csvRelease simpleParse (Except.ok ()) c5StB "/contact.csv").1.imports = [] ∧
    (csvRelease simpleParse (Except.ok ()) c5StB "/contact.csv").2
      = Except.error PyErr.indexError :=
  ⟨rfl, by decide, rfl, rfl⟩

/-- Claim C5 as amended: on a buffered file whose parsed content is nonempty
and whose derived model is known to the registry, `release` invokes the
bulk-import sink exactly once — the log grows by exactly one call — with
header the first parsed row, rows the remaining parsed rows in order, mode
`init`, and target type the path with every `.csv` occurrence removed and
the leading slash dropped (this equals suffix-stripping whenever `.csv`
occurs only as the final suffix). -/
theorem c5_amended (parse : List Nat → List (List (List Nat)))
    (sf : Except PyErr Unit) (st : CsvState) (path : String) (buf : List Nat)
    (hbuf : tblGet st.files path = some buf)
    (hpool : st.poolModels.contains (csvModelOf path) = true)
    (hlines : parse buf ≠ []) :
    (csvRelease parse sf st path).1.imports
      = st.imports ++
        [{ model := csvModelOf path, header := (parse buf).headD [],
           rows := (parse buf).drop 1, mode := "init" }] := by
  cases hl : parse buf with
  | nil => exact absurd hl hlines
  | cons h t =>
    have hpool' : csvModelOf path ∈ st.poolModels := by simpa using hpool
    cases hf : st.importFails with
    | true => simp [csvRelease, hbuf, hpool, hpool', hl, hf]
    | false => simp [csvRelease, hbuf, hpool, hpool', hl, hf]

/-- State for the C5 witness: the spec's own example buffer. -/
def c5WSt : CsvState :=
  { files := [("/contact.csv", strBytes "name,age\nAlice,30\nBob,40\n")],
    poolModels := ["contact"], imports := [], importFails := false }

/-- Witness for C5 as amended on the spec's example
`name,age\nAlice,30\nBob,40\n` at `/contact.csv`. -/
theorem c5_amended_witness :
    (csvRelease simpleParse (Except.ok ()) c5WSt "/contact.csv").1.imports
      = c5WSt.imports ++
        [{ model := csvModelOf "/contact.csv",
           header := (simpleParse (strBytes "name,age\nAlice,30\nBob,40\n")).headD [],
           rows := (simpleParse (strBytes "name,age\nAlice,30\nBob,40\n")).drop 1,
           mode := "init" }] :=
  c5_amended simpleParse (Except.ok ()) c5WSt "/contact.csv"
    (strBytes "name,age\nAlice,30\nBob,40\n") rfl rfl (by decide)

/-! ### Document backend (`OerpFSDocument`)

The document tree is an external collaborator (`get_node_context` /
`get_uri` of the openerp document module), modelled at its interface
boundary: a node is characterized by the attributes the source reads
(`our_type`, `get_data_len`), and URI resolution is a finite map from
segment lists to nodes (`None` when nothing resolves). -/

/-- The attributes of a document node that `OerpFSDocument.getattr` reads. -/
structure DocNode where
  our_type : String
  data_len : Nat
deriving DecidableEq

/-- The document tree, as the graph of `get_uri`: segment list → node. -/
abbrev DocTree : Type := List (List String × DocNode)

/-- `node.get_uri(cr, segments)`: resolve a segment list to a node, `none`
when unresolvable (falsy node). -/
def getUri (tree : DocTree) (segs : List String) : Option DocNode :=
  (List.find? (fun p => p.1 == segs) tree).map (fun p => p.2)

/-- `OerpFSDocument._get_node` path handling (src/oerpfs.py lines 420-429):
the root path becomes the empty string before splitting, so the root
resolves through the empty segment list. -/
def docSegments (path : String) : List String :=
  pySplitPath (if path = "/" then "" else path)

/-- `OerpFSDocument.getattr` (src/oerpfs.py lines 431-460): unresolvable →
`-ENOENT`; `database`/`collection` nodes are `S_IFDIR | 0600` directories;
`file` nodes are `S_IFREG | 0600` regular files sized by `get_data_len`; any
other kind keeps the pre-initialized `S_IFREG | 0000` unreadable placeholder
(`st_nlink` stays 0 in every branch). -/
def docGetattr (tree : DocTree) (path : String) : AttrRes :=
  match getUri tree (docSegments path) with
  | none => .enoent
  | some node =>
    if node.our_type = "database" ∨ node.our_type = "collection" then
      .stat { st_mode := S_IFDIR ||| 0o600, st_nlink := 0, st_size := 0 }
    else if node.our_type = "file" then
      .stat { st_mode := S_IFREG ||| 0o600, st_nlink := 0, st_size := node.data_len }
    else
      .stat { st_mode := S_IFREG ||| 0o000, st_nlink := 0, st_size := 0 }

/-- Claim C8: document-tree `getattr` on every resolvable path returns a
read/write directory record for collection-like kinds (`database`,
`collection`), a read/write regular-file record sized by the node's reported
payload length for kind `file`, and a zero-permission regular-file
placeholder (never an error) for any other kind. -/
theorem c8_doc_getattr (tree : DocTree) (path : String) (node : DocNode)
    (h : getUri tree (docSegments path) = some node) :
    ((node.our_type = "database" ∨ node.our_type = "collection") →
       docGetattr tree path
         = AttrRes.stat { st_mode := S_IFDIR ||| 0o600, st_nlink := 0, st_size := 0 }) ∧
    (node.our_type = "file" →
       docGetattr tree path
         = AttrRes.stat { st_mode := S_IFREG ||| 0o600, st_nlink := 0,
                          st_size := node.data_len }) ∧
    (node.our_type ≠ "database" → node.our_type ≠ "collection" →
       node.our_type ≠ "file" →
       docGetattr tree path
         = AttrRes.stat { st_mode := S_IFREG ||| 0o000, st_nlink := 0, st_size := 0 }) := by
  refine ⟨?_, ?_, ?_⟩
  · intro hk
    simp [docGetattr, h, hk]
  · intro hk
    have hnd : ¬(node.our_type = "database" ∨ node.our_type = "collection") := by
      rw [hk]
      intro hx
      rcases hx with hx | hx <;> exact absurd hx (by decide)
    simp [docGetattr, h, hnd, hk]
  · intro h1 h2 h3
    have hnd : ¬(node.our_type = "database" ∨ node.our_type = "collection") := by
      intro hx
      rcases hx with hx | hx
      · exact h1 hx
      · exact h2 hx
    simp [docGetattr, h, hnd, h3]

/-- A concrete document tree for the C8 witness: a collection at `/docs`, a
3-byte file under it, and a node of unknown kind. -/
def c8Tree : DocTree :=
  [([""], { our_type := "database", data_len := 0 }),
   (["docs"], { our_type := "collection", data_len := 0 }),
   (["docs", "a.txt"], { our_type := "file", data_len := 3 }),
   (["docs", "odd"], { our_type := "link", data_len := 7 })]

/-- Witness for C8: the file node under `/docs` reports a regular file of
size 3. -/
theorem c8_doc_getattr_witness :
    docGetattr c8Tree "/docs/a.txt"
      = AttrRes.stat { st_mode := S_IFREG ||| 0o600, st_nlink := 0, st_size := 3 } :=
  (c8_doc_getattr c8Tree "/docs/a.txt" { our_type := "file", data_len := 3 }
    rfl).2.1 rfl

end Oerpfs
